import Mathlib

/-!
Shallow embedding of the forecasting core of `src/stock_prediction_.py`
(`StockAnalysisSystem`): the min-max scaler (sklearn `MinMaxScaler`), the
sequence windowing and chronological train/test split, the autoregressive
future rollout, and the technical-indicator transforms
(`calculate_technical_indicators`).

Machine floats are modelled by exact rationals; IEEE special values that the
source relies on (NaN from `0/0`, infinity from `x/0`) are modelled by
`Option ℚ`, with the exactly-determined case `100 - 100/(1 + g/0) = 100`
(for `g > 0`) mapped to its exact value.
-/

namespace StockPrediction

/-! ## Scaler: sklearn `MinMaxScaler(feature_range=(0, 1))`, lines 144-145.

sklearn stores `data_min_`/`data_max_` over the fitted array and sets
`scale_ = (1 - 0) / handle_zeros_in_scale(data_max_ - data_min_)`,
`min_ = 0 - data_min_ * scale_`; `transform(x) = x * scale_ + min_`,
`inverse_transform(y) = (y - min_) / scale_`. `_handle_zeros_in_scale`
replaces a zero range by 1, so fitting never fails on a constant array;
the only fit-time error is a `ValueError` on an empty input array. -/

/-- sklearn `_handle_zeros_in_scale`: a zero scale is replaced by 1. -/
def handleZerosInScale (x : ℚ) : ℚ := if x = 0 then 1 else x

/-- Minimum of a list, as numpy `min` over a non-empty array (0 on empty,
which sklearn rejects before ever taking a minimum). -/
def listMin : List ℚ → ℚ
  | [] => 0
  | x :: xs => xs.foldl min x

/-- Maximum of a list, as numpy `max` over a non-empty array. -/
def listMax : List ℚ → ℚ
  | [] => 0
  | x :: xs => xs.foldl max x

/-- Fitted state of `MinMaxScaler`: `data_min_` and `data_max_`. -/
structure MinMaxScaler where
  dataMin : ℚ
  dataMax : ℚ
deriving DecidableEq, Repr

/-- `MinMaxScaler.fit` on a price array (line 144-145). -/
def fitScaler (vals : List ℚ) : MinMaxScaler :=
  ⟨listMin vals, listMax vals⟩

/-- sklearn attribute `scale_` for `feature_range=(0,1)`. -/
def MinMaxScaler.scaleAttr (s : MinMaxScaler) : ℚ :=
  1 / handleZerosInScale (s.dataMax - s.dataMin)

/-- sklearn attribute `min_` for `feature_range=(0,1)`. -/
def MinMaxScaler.minAttr (s : MinMaxScaler) : ℚ :=
  0 - s.dataMin * s.scaleAttr

/-- sklearn `MinMaxScaler.transform` on one value. -/
def MinMaxScaler.transform (s : MinMaxScaler) (x : ℚ) : ℚ :=
  x * s.scaleAttr + s.minAttr

/-- sklearn `MinMaxScaler.inverse_transform` on one value. -/
def MinMaxScaler.inverse (s : MinMaxScaler) (y : ℚ) : ℚ :=
  (y - s.minAttr) / s.scaleAttr

/-- Errors of the forecasting pipeline.  `emptyInput` is the `ValueError`
sklearn raises when fitting an empty array; `indexError` is the numpy
`IndexError` raised at line 166/193 when `x_train.shape[1]` is read off an
empty (0,)-shaped array.  `degenerateRange` and `insufficientData` are the
errors the specification's contract names; the source produces neither —
they are present so that statements about them can be expressed. -/
inductive PipeError where
  | emptyInput
  | indexError
  | degenerateRange
  | insufficientData
deriving DecidableEq, Repr

/-- `scaler.fit_transform(close_prices)` (line 145): fit on the whole array,
then transform every element.  Raises only on an empty input. -/
def scalerFitTransform (vals : List ℚ) : Except PipeError (List ℚ) :=
  if vals = [] then .error .emptyInput
  else .ok (vals.map (fitScaler vals).transform)

/-! ## Windowing and train/test split (`train_predict_lstm`, lines 147-193) -/

/-- `training_data_len = int(np.ceil(len(scaled_data) * 0.8))` (line 148):
the ceiling of `4n/5`, i.e. `(4n + 4) / 5` in natural division. -/
def trainingDataLen (n : ℕ) : ℕ := (4 * n + 4) / 5

/-- Python slice `xs[i:]`, including the negative-index case
(`start = max(0, len(xs) + i)`, which natural subtraction gives). -/
def pyDrop (xs : List ℚ) (i : ℤ) : List ℚ :=
  if 0 ≤ i then xs.drop i.toNat else xs.drop (xs.length - (-i).toNat)

/-- The input windows built by the loops at lines 158-159 (train) and
189-190 (test): for `i` in `range(t, len(xs))`, window `xs[i-t:i]`;
re-indexed by `j = i - t`, window `j` is `xs[j : j+t]`. -/
def windowsX (xs : List ℚ) (t : ℕ) : List (List ℚ) :=
  (List.range (xs.length - t)).map fun j => (xs.drop j).take t

/-- The train targets built at line 160: `y_train[j] = xs[j + t]`. -/
def windowsY (xs : List ℚ) (t : ℕ) : List ℚ :=
  (List.range (xs.length - t)).map fun j => xs.getD (j + t) 0

/-- `test_data = scaled_data[training_data_len - time_steps:]` (line 184),
with Python's negative-index slice semantics when
`training_data_len < time_steps`. -/
def testDataOf (s : List ℚ) (t : ℕ) : List ℚ :=
  pyDrop s ((trainingDataLen s.length : ℤ) - t)

/-- A concrete strictly increasing price series `0, 1, ..., n-1`. -/
def rampSeries (n : ℕ) : List ℚ := List.map (fun i : ℕ => (i : ℚ)) (List.range n)

/-! ## Future rollout and the full pipeline (lines 195-241) -/

/-- `np.append(current_sequence[0][1:], pred)` (line 216): drop the oldest
value and append the new prediction. -/
def slideStep (p : List ℚ → ℚ) (w : List ℚ) : List ℚ :=
  w.drop 1 ++ [p w]

/-- The window held by `current_sequence` at the start of iteration `i` of
the rollout loop (lines 206-217). -/
def rolloutWindow (p : List ℚ → ℚ) (w : List ℚ) : ℕ → List ℚ
  | 0 => w
  | i + 1 => slideStep p (rolloutWindow p w i)

/-- `future_predictions` after `n` iterations of the rollout loop
(lines 204-217): one model call per iteration, each prediction appended
and fed back through the slid window. -/
def futureRollout (p : List ℚ → ℚ) (w : List ℚ) : ℕ → List ℚ
  | 0 => []
  | n + 1 => p w :: futureRollout p (slideStep p w) n

/-- `pd.date_range(start=last_date + timedelta(days=1), periods=n)`
(line 224): the `n` consecutive days after `last_date` (dates modelled as
day numbers). -/
def futureDates (last : ℤ) (n : ℕ) : List ℤ :=
  List.map (fun i : ℕ => last + 1 + (i : ℤ)) (List.range n)

/-- Arithmetic mean, as numpy `mean`. -/
def meanVal (xs : List ℚ) : ℚ := xs.sum / xs.length

/-- What `train_predict_lstm` stores and returns for one symbol:
historical test predictions, the future `(date, price)` frame, and the
RMSE. -/
structure ForecastResult where
  historical : List ℚ
  future : List (ℤ × ℚ)
  rmse : ℚ
deriving DecidableEq, Repr

/-- `StockAnalysisSystem.train_predict_lstm` (lines 133-245), with the
trained network abstracted by `predictOne : List ℚ → ℚ` (the value of one
`model.predict` call on a window — the claims do not depend on it) and
`np.sqrt` abstracted by `sqrtFn`.  The control flow and data flow follow
the source: fit-transform the close prices (error only on an empty array),
split at `training_data_len`, build train windows with `time_steps = 60`
(an empty `x_train` makes `np.reshape` read the missing `shape[1]` —
numpy `IndexError`, line 166; same for `x_test` at line 193), predict and
inverse-transform the test windows, compute the RMSE, then roll out
`prediction_days` future steps from the last 60 scaled values and attach
the dates following the series' last date. -/
def trainPredictLstm (predictOne : List ℚ → ℚ) (sqrtFn : ℚ → ℚ)
    (lastDate : ℤ) (closes : List ℚ) (predictionDays : ℕ) :
    Except PipeError ForecastResult :=
  if closes = [] then .error .emptyInput
  else
    let scaler := fitScaler closes
    let scaled := closes.map scaler.transform
    let tdl := trainingDataLen closes.length
    let trainData := scaled.take tdl
    let xTrain := windowsX trainData 60
    if xTrain = [] then .error .indexError
    else
      let testData := pyDrop scaled ((tdl : ℤ) - 60)
      let xTest := windowsX testData 60
      if xTest = [] then .error .indexError
      else
        let preds := (xTest.map predictOne).map scaler.inverse
        let yTest := closes.drop tdl
        let rmse := sqrtFn (meanVal ((yTest.zip preds).map fun q => (q.1 - q.2) ^ 2))
        let lastSequence := pyDrop scaled (-(60 : ℤ))
        let futScaled := futureRollout predictOne lastSequence predictionDays
        let fut := futScaled.map scaler.inverse
        .ok ⟨preds, (futureDates lastDate predictionDays).zip fut, rmse⟩

/-! ## Technical indicators (`calculate_technical_indicators`, lines 85-131)

All columns are computed from the close column.  Machine floats are
modelled by exact rationals; a pandas/numpy NaN (warm-up positions, `0/0`)
or infinity (`x/0`) entry is modelled as `none`, except for the one place
where an IEEE infinity produces an exactly determined finite result (the
zero-average-loss branch of the RSI, where `100 - 100/(1 + g/0) = 100` for
`g > 0`). -/

/-- pandas `Series.rolling(window=w).mean()` on a NaN-free column:
undefined for the first `w - 1` positions (default `min_periods = w`),
afterwards the arithmetic mean of the trailing `w` values. -/
def rollingMean (w : ℕ) (xs : List ℚ) : List (Option ℚ) :=
  List.map
    (fun i : ℕ =>
      if i + 1 < w then none
      else some (((xs.drop (i + 1 - w)).take w).sum / (w : ℚ)))
    (List.range xs.length)

/-- pandas `Series.rolling(window=w).std()` (sample standard deviation,
`ddof = 1`), with the square root abstracted by `sqrtFn` (its value is
irrational in general and no claim depends on it; the definedness pattern
is what matters). -/
def rollingStd (sqrtFn : ℚ → ℚ) (w : ℕ) (xs : List ℚ) : List (Option ℚ) :=
  List.map
    (fun i : ℕ =>
      if i + 1 < w then none
      else
        let win := (xs.drop (i + 1 - w)).take w
        let m := win.sum / (w : ℚ)
        some (sqrtFn ((win.map fun x => (x - m) ^ 2).sum / ((w : ℚ) - 1))))
    (List.range xs.length)

/-- pandas `Series.ewm(span=s, adjust=False).mean()` with `k = 2/(s+1)`:
`y[0] = x[0]`, `y[i] = x[i]*k + y[i-1]*(1-k)` — defined at every index,
no warm-up gap. -/
def ewmMean (k : ℚ) : List ℚ → List ℚ
  | [] => []
  | c :: cs => List.scanl (fun prev x => x * k + prev * (1 - k)) c cs

/-- `ewm(span=span, adjust=False).mean()` as used at lines 99-100/104. -/
def emaSpan (span : ℕ) (xs : List ℚ) : List ℚ :=
  ewmMean (2 / ((span : ℚ) + 1)) xs

/-- `gain = delta.where(delta > 0, 0)` over `delta = df['Close'].diff()`
(lines 108-109).  `delta[0]` is NaN and `NaN > 0` is false, so
`gain[0] = 0`; afterwards `gain[i] = max(close[i] - close[i-1], 0)`. -/
def gains : List ℚ → List ℚ
  | [] => []
  | c :: cs => 0 :: List.zipWith (fun a b => if b < a then a - b else 0) cs (c :: cs)

/-- `loss = -delta.where(delta < 0, 0)` (line 110): `loss[0] = 0`,
afterwards `loss[i] = max(close[i-1] - close[i], 0)`. -/
def losses : List ℚ → List ℚ
  | [] => []
  | c :: cs => 0 :: List.zipWith (fun a b => if a < b then b - a else 0) cs (c :: cs)

/-- `100 - 100/(1 + avg_gain/avg_loss)` (lines 113-114) under IEEE
semantics on exact values: a warm-up NaN in either average propagates;
`avg_loss = 0` with `avg_gain > 0` gives ratio `+inf` and the exact value
100; `avg_loss = 0 = avg_gain` gives ratio NaN, so the RSI entry is NaN
(undefined). -/
def rsiFromAvgs : Option ℚ → Option ℚ → Option ℚ
  | some g, some l =>
      if l = 0 then (if g = 0 then none else some 100)
      else some (100 - 100 / (1 + g / l))
  | _, _ => none

/-- The `df['RSI']` column (lines 107-114). -/
def rsiColumn (closes : List ℚ) : List (Option ℚ) :=
  List.zipWith rsiFromAvgs (rollingMean 14 (gains closes))
    (rollingMean 14 (losses closes))

/-- `df['Momentum'] = df['Close'] / df['Close'].shift(10)` (line 124):
NaN for the first 10 positions; division by a zero close yields an IEEE
non-finite entry, represented as undefined. -/
def momentumColumn (closes : List ℚ) : List (Option ℚ) :=
  List.map
    (fun i : ℕ =>
      if i < 10 then none
      else if closes.getD (i - 10) 0 = 0 then none
      else some (closes.getD i 0 / closes.getD (i - 10) 0))
    (List.range closes.length)

/-- Lift a binary arithmetic operation over possibly-undefined (NaN)
entries, as pandas column arithmetic propagates NaN. -/
def optMap2 (f : ℚ → ℚ → ℚ) : Option ℚ → Option ℚ → Option ℚ
  | some a, some b => some (f a b)
  | _, _ => none

/-- Division of possibly-undefined entries; a zero denominator gives an
IEEE non-finite value, represented as undefined. -/
def optDiv : Option ℚ → Option ℚ → Option ℚ
  | some a, some b => if b = 0 then none else some (a / b)
  | _, _ => none

/-- The derived columns of the indicator frame built by
`calculate_technical_indicators` for one symbol. -/
structure IndicatorFrame where
  sma20 : List (Option ℚ)
  sma50 : List (Option ℚ)
  sma200 : List (Option ℚ)
  ema12 : List ℚ
  ema26 : List ℚ
  macd : List ℚ
  macdSignal : List ℚ
  macdHist : List ℚ
  rsi : List (Option ℚ)
  bbMiddle : List (Option ℚ)
  bbStd : List (Option ℚ)
  bbUpper : List (Option ℚ)
  bbLower : List (Option ℚ)
  bbWidth : List (Option ℚ)
  momentum : List (Option ℚ)

/-- `StockAnalysisSystem.calculate_technical_indicators` (lines 85-131)
on one symbol's close column.  Every column is a total function of the
input — the computation cannot raise; undefined positions are `none`. -/
def calculateTechnicalIndicators (sqrtFn : ℚ → ℚ) (closes : List ℚ) :
    IndicatorFrame :=
  let e12 := emaSpan 12 closes
  let e26 := emaSpan 26 closes
  let macd := List.zipWith (fun a b => a - b) e12 e26
  let signal := emaSpan 9 macd
  let mid := rollingMean 20 closes
  let std := rollingStd sqrtFn 20 closes
  let upper := List.zipWith (optMap2 fun m s => m + 2 * s) mid std
  let lower := List.zipWith (optMap2 fun m s => m - 2 * s) mid std
  { sma20 := rollingMean 20 closes
    sma50 := rollingMean 50 closes
    sma200 := rollingMean 200 closes
    ema12 := e12
    ema26 := e26
    macd := macd
    macdSignal := signal
    macdHist := List.zipWith (fun a b => a - b) macd signal
    rsi := rsiColumn closes
    bbMiddle := mid
    bbStd := std
    bbUpper := upper
    bbLower := lower
    bbWidth := List.zipWith optDiv
      (List.zipWith (optMap2 fun a b => a - b) upper lower) mid
    momentum := momentumColumn closes }

/-! ### Basic scaler lemmas -/

theorem listMin_replicate (n : ℕ) (v : ℚ) (h : 1 ≤ n) :
    listMin (List.replicate n v) = v := by
  obtain ⟨m, rfl⟩ : ∃ m, n = m + 1 := ⟨n - 1, by omega⟩
  show listMin (v :: List.replicate m v) = v
  unfold listMin
  induction m with
  | zero => rfl
  | succ k ih => simpa [List.replicate_succ, min_self] using ih

theorem listMax_replicate (n : ℕ) (v : ℚ) (h : 1 ≤ n) :
    listMax (List.replicate n v) = v := by
  obtain ⟨m, rfl⟩ : ∃ m, n = m + 1 := ⟨n - 1, by omega⟩
  show listMax (v :: List.replicate m v) = v
  unfold listMax
  induction m with
  | zero => rfl
  | succ k ih => simpa [List.replicate_succ, max_self] using ih

/-- On a constant array the fitted scaler has `scale_ = 1` (range 0 is
replaced by 1) and `min_ = -v`, so each value transforms to 0. -/
theorem transform_const (n : ℕ) (v : ℚ) (h : 1 ≤ n) :
    (fitScaler (List.replicate n v)).transform v = 0 := by
  simp [fitScaler, MinMaxScaler.transform, MinMaxScaler.minAttr,
    MinMaxScaler.scaleAttr, listMin_replicate n v h, listMax_replicate n v h,
    handleZerosInScale]

/-! ## Claims C1 and C5 -/

/-- C1, counterexample.  The claim says a constant series of 100 identical
closes makes the scaler fit step raise `DegenerateRangeError` rather than
proceed to produce scaled values.  In the source the fit step is sklearn's
`MinMaxScaler.fit_transform`, which replaces the zero range of a constant
array by 1 and proceeds: on 100 identical closes of 5 it succeeds and
returns 100 scaled values, all 0 — no error of any kind is raised. -/
theorem C1_counterexample :
    scalerFitTransform (List.replicate 100 (5 : ℚ)) =
      .ok (List.replicate 100 (0 : ℚ)) ∧
    scalerFitTransform (List.replicate 100 (5 : ℚ)) ≠
      .error .degenerateRange := by
  have hok : scalerFitTransform (List.replicate 100 (5 : ℚ)) =
      .ok (List.replicate 100 (0 : ℚ)) := by
    rw [scalerFitTransform, if_neg (by simp)]
    rw [List.map_replicate, transform_const 100 5 (by norm_num)]
  exact ⟨hok, by rw [hok]; simp⟩

/-- C1, amended: fitting the scaler on a constant series does not fail.
sklearn's `MinMaxScaler` substitutes 1 for the zero range
(`_handle_zeros_in_scale`), so `fit_transform` on any non-empty constant
series succeeds and yields a series of the same length with every scaled
value equal to 0. -/
theorem C1_fit_constant_succeeds (n : ℕ) (v : ℚ) (h : 1 ≤ n) :
    scalerFitTransform (List.replicate n v) = .ok (List.replicate n (0 : ℚ)) := by
  rw [scalerFitTransform, if_neg (by simp; omega)]
  rw [List.map_replicate, transform_const n v h]

/-- Witness for C1's amended theorem at a constant series of length 100. -/
theorem C1_fit_constant_succeeds_witness :
    1 ≤ 100 ∧
    scalerFitTransform (List.replicate 100 (7 : ℚ)) =
      .ok (List.replicate 100 (0 : ℚ)) :=
  ⟨by norm_num, C1_fit_constant_succeeds 100 7 (by norm_num)⟩

/-- C5: for a non-degenerate fitted range and any `x` inside it, the
scaler's inverse transform undoes the transform exactly (rationals model
the float computation, so "within tolerance" is met with zero error):
`inverse(transform(x)) = x`. -/
theorem C5_scaler_round_trip (vals : List ℚ) (x : ℚ)
    (h : listMin vals < listMax vals)
    (hx1 : listMin vals ≤ x) (hx2 : x ≤ listMax vals) :
    (fitScaler vals).inverse ((fitScaler vals).transform x) = x := by
  have hd : listMax vals - listMin vals ≠ 0 := by linarith
  simp only [fitScaler, MinMaxScaler.inverse, MinMaxScaler.transform,
    MinMaxScaler.minAttr, MinMaxScaler.scaleAttr, handleZerosInScale,
    if_neg hd]
  field_simp

/-- Witness for C5 with fitted values `[1, 3]` and `x = 2`. -/
theorem C5_scaler_round_trip_witness :
    (listMin [(1 : ℚ), 3] < listMax [(1 : ℚ), 3] ∧
      listMin [(1 : ℚ), 3] ≤ 2 ∧ (2 : ℚ) ≤ listMax [(1 : ℚ), 3]) ∧
    (fitScaler [(1 : ℚ), 3]).inverse ((fitScaler [(1 : ℚ), 3]).transform 2) = 2 :=
  ⟨⟨by decide, by decide, by decide⟩,
    C5_scaler_round_trip [(1 : ℚ), 3] 2 (by decide) (by decide) (by decide)⟩

/-! ### Windowing lemmas -/

theorem windowsX_length (xs : List ℚ) (t : ℕ) :
    (windowsX xs t).length = xs.length - t := by
  simp [windowsX]

theorem windowsY_length (xs : List ℚ) (t : ℕ) :
    (windowsY xs t).length = xs.length - t := by
  simp [windowsY]

theorem windowsX_getD (xs : List ℚ) (t j : ℕ) (hj : j < xs.length - t) :
    (windowsX xs t).getD j [] = (xs.drop j).take t := by
  rw [windowsX, List.getD_eq_getElem?_getD, List.getElem?_map,
    List.getElem?_range hj]
  rfl

theorem windowsY_getD (xs : List ℚ) (t j : ℕ) (hj : j < xs.length - t) :
    (windowsY xs t).getD j 0 = xs.getD (j + t) 0 := by
  rw [windowsY, List.getD_eq_getElem?_getD, List.getElem?_map,
    List.getElem?_range hj]
  rfl

theorem trainingDataLen_le (n : ℕ) : trainingDataLen n ≤ n := by
  unfold trainingDataLen
  omega

theorem trainingDataLen_lt (n : ℕ) (h : 5 ≤ n) : trainingDataLen n < n := by
  unfold trainingDataLen
  omega

theorem rampSeries_length (n : ℕ) : (rampSeries n).length = n := by
  rw [rampSeries, List.length_map, List.length_range]

theorem rampSeries_ne_nil (n : ℕ) (h : 0 < n) : rampSeries n ≠ [] := by
  intro hcon
  have hl := rampSeries_length n
  rw [hcon] at hl
  simp only [List.length_nil] at hl
  omega

theorem testDataOf_eq_drop (s : List ℚ) (t : ℕ)
    (h : t ≤ trainingDataLen s.length) :
    testDataOf s t = s.drop (trainingDataLen s.length - t) := by
  unfold testDataOf pyDrop
  rw [if_pos (by omega)]
  have h2 : ((trainingDataLen s.length : ℤ) - t).toNat
      = trainingDataLen s.length - t := by omega
  rw [h2]

/-! ## Claims C2, C3, C10 -/

/-- C2, counterexample.  The claim puts the split point at
`floor(n × 0.8)` and the train-window count at `floor((n-t) × 0.8)`.
At `n = 101`, `t = 60` the source computes
`training_data_len = ceil(101 × 0.8) = 81`, not `floor(101 × 0.8) = 80`,
and builds `81 - 60 = 21` train windows, not `floor(41 × 0.8) = 32`. -/
theorem C2_counterexample :
    (windowsX ((rampSeries 101).take (trainingDataLen 101)) 60).length
        ≠ (101 - 60) * 4 / 5 ∧
    trainingDataLen 101 ≠ 101 * 4 / 5 := by
  constructor
  · rw [windowsX_length, List.length_take, rampSeries_length]
    decide
  · decide

/-- C2, amended.  With `t ≤ training_data_len` (so the test slice has a
non-negative start), the split point is `training_data_len = ceil(n × 0.8)`
(not floor): there are `training_data_len - t` train windows,
`n - training_data_len` test windows, `n - t` windows in total; train
window `j` is `s[j : j+t]` with target `s[j+t]` (target index `< tdl`),
test window `k` is `s[tdl-t+k : tdl+k]`, and every train target index
`j + t` precedes every test target index `tdl + k`. -/
theorem C2_amended (s : List ℚ) (t : ℕ)
    (h : t ≤ trainingDataLen s.length) :
    (windowsX (s.take (trainingDataLen s.length)) t).length
        = trainingDataLen s.length - t ∧
    (windowsX (testDataOf s t) t).length
        = s.length - trainingDataLen s.length ∧
    (windowsX (s.take (trainingDataLen s.length)) t).length
        + (windowsX (testDataOf s t) t).length = s.length - t ∧
    (∀ j, j < trainingDataLen s.length - t →
      (windowsX (s.take (trainingDataLen s.length)) t).getD j []
          = (s.drop j).take t ∧
      (windowsY (s.take (trainingDataLen s.length)) t).getD j 0
          = s.getD (j + t) 0) ∧
    (∀ k, k < s.length - trainingDataLen s.length →
      (windowsX (testDataOf s t) t).getD k []
          = (s.drop (trainingDataLen s.length - t + k)).take t) ∧
    (∀ j k, j < trainingDataLen s.length - t →
      j + t < trainingDataLen s.length + k) := by
  have hle : trainingDataLen s.length ≤ s.length := trainingDataLen_le _
  have htd := testDataOf_eq_drop s t h
  refine ⟨?_, ?_, ?_, ?_, ?_, ?_⟩
  · rw [windowsX_length, List.length_take]
    omega
  · rw [htd, windowsX_length, List.length_drop]
    omega
  · rw [htd, windowsX_length, windowsX_length, List.length_take,
      List.length_drop]
    omega
  · intro j hj
    constructor
    · rw [windowsX_getD _ _ _ (by rw [List.length_take]; omega)]
      rw [List.drop_take, List.take_take]
      congr 1
      omega
    · rw [windowsY_getD _ _ _ (by rw [List.length_take]; omega)]
      rw [List.getD_eq_getElem?_getD, List.getD_eq_getElem?_getD,
        List.getElem?_take]
      rw [if_pos (by omega)]
  · intro k hk
    rw [htd, windowsX_getD _ _ _ (by rw [List.length_drop]; omega)]
    rw [List.drop_drop]
  · intro j k hj
    omega

/-- Witness for C2's amended theorem: the ramp series of length 101 with
`time_steps = 60` (the split lands at index 81, giving 21 train windows). -/
theorem C2_amended_witness :
    60 ≤ trainingDataLen (rampSeries 101).length ∧
    (windowsX ((rampSeries 101).take (trainingDataLen (rampSeries 101).length)) 60).length
        = trainingDataLen (rampSeries 101).length - 60 :=
  ⟨by rw [rampSeries_length]; decide,
    (C2_amended (rampSeries 101) 60 (by rw [rampSeries_length]; decide)).1⟩

/-- C3, counterexample.  The claim says a series shorter than
`timeSteps + 1` makes the pipeline fail with `InsufficientDataError`.
The source has no such check: on a series of length 50 with
`time_steps = 60` the train loop produces zero windows and
`np.reshape(x_train, (0, x_train.shape[1], 1))` at line 166 fails with a
generic numpy `IndexError` (reading `shape[1]` of a `(0,)`-shaped array) —
not an `InsufficientDataError`. -/
theorem C3_counterexample :
    trainPredictLstm (fun _ => 0) (fun q => q) 0 (rampSeries 50) 30
        = .error .indexError ∧
    trainPredictLstm (fun _ => 0) (fun q => q) 0 (rampSeries 50) 30
        ≠ .error .insufficientData := by
  have hok : trainPredictLstm (fun _ => 0) (fun q => q) 0 (rampSeries 50) 30
      = .error .indexError := by
    rw [trainPredictLstm, if_neg (rampSeries_ne_nil 50 (by norm_num)), if_pos]
    apply List.eq_nil_of_length_eq_zero
    rw [windowsX_length, List.length_take, List.length_map, rampSeries_length]
    decide
  exact ⟨hok, by rw [hok]; simp⟩

/-- C3, amended.  For every non-empty series with fewer than
`time_steps + 1 = 61` observations, the pipeline fails before any training
with the generic numpy `IndexError` from reshaping the empty train-window
array — the source performs no explicit length validation and raises no
`InsufficientDataError`. -/
theorem C3_short_series_index_error (predictOne : List ℚ → ℚ)
    (sqrtFn : ℚ → ℚ) (lastDate : ℤ) (closes : List ℚ) (pd : ℕ)
    (h1 : closes ≠ []) (h2 : closes.length < 61) :
    trainPredictLstm predictOne sqrtFn lastDate closes pd
        = .error .indexError := by
  rw [trainPredictLstm, if_neg h1, if_pos]
  apply List.eq_nil_of_length_eq_zero
  rw [windowsX_length, List.length_take, List.length_map]
  have := trainingDataLen_le closes.length
  omega

/-- Witness for C3's amended theorem at a ramp series of length 55. -/
theorem C3_short_series_index_error_witness :
    (rampSeries 55 ≠ [] ∧ (rampSeries 55).length < 61) ∧
    trainPredictLstm (fun _ => 0) (fun q => q) 0 (rampSeries 55) 30
        = .error .indexError :=
  ⟨⟨rampSeries_ne_nil 55 (by norm_num), by rw [rampSeries_length]; norm_num⟩,
    C3_short_series_index_error (fun _ => 0) (fun q => q) 0 (rampSeries 55) 30
      (rampSeries_ne_nil 55 (by norm_num)) (by rw [rampSeries_length]; norm_num)⟩

/-- C10: with `time_steps = t < training_data_len ≤ n`, the number of
historical predictions (one `predictOne` call per test window) is
`n - training_data_len`; test window `k` is the scaled slice
`s[tdl-t+k : tdl+k]`, so each of the first `t` test windows starts at
index `tdl - t + k < tdl`, inside the training portion; and the test
targets `y_test = close_prices[training_data_len:]` begin exactly at
index `training_data_len` of the raw close series. -/
theorem C10_test_windows_overlap_train (s closes : List ℚ)
    (p : List ℚ → ℚ) (t : ℕ)
    (h : t < trainingDataLen s.length) :
    ((windowsX (testDataOf s t) t).map p).length
        = s.length - trainingDataLen s.length ∧
    (∀ k, k < s.length - trainingDataLen s.length →
      (windowsX (testDataOf s t) t).getD k []
          = (s.drop (trainingDataLen s.length - t + k)).take t) ∧
    (∀ k, k < t → k < s.length - trainingDataLen s.length →
      ((windowsX (testDataOf s t) t).getD k [])[0]?
          = s[trainingDataLen s.length - t + k]? ∧
      trainingDataLen s.length - t + k < trainingDataLen s.length) ∧
    (∀ k, (closes.drop (trainingDataLen closes.length))[k]?
        = closes[trainingDataLen closes.length + k]?) := by
  have hle : trainingDataLen s.length ≤ s.length := trainingDataLen_le _
  have htd := testDataOf_eq_drop s t (le_of_lt h)
  have hwin : ∀ k, k < s.length - trainingDataLen s.length →
      (windowsX (testDataOf s t) t).getD k []
        = (s.drop (trainingDataLen s.length - t + k)).take t := by
    intro k hk
    rw [htd, windowsX_getD _ _ _ (by rw [List.length_drop]; omega)]
    rw [List.drop_drop]
  refine ⟨?_, hwin, ?_, ?_⟩
  · rw [List.length_map, htd, windowsX_length, List.length_drop]
    omega
  · intro k hkt hk
    refine ⟨?_, by omega⟩
    rw [hwin k hk]
    rw [List.getElem?_take, if_pos (by omega), List.getElem?_drop,
      Nat.add_zero]
  · intro k
    rw [List.getElem?_drop]

/-- Witness for C10 at the ramp series of length 101 with `t = 60`:
`training_data_len = 81`, 20 historical predictions. -/
theorem C10_test_windows_overlap_train_witness :
    60 < trainingDataLen (rampSeries 101).length ∧
    ((windowsX (testDataOf (rampSeries 101) 60) 60).map (fun _ => (0 : ℚ))).length
        = (rampSeries 101).length - trainingDataLen (rampSeries 101).length :=
  ⟨by rw [rampSeries_length]; decide,
    (C10_test_windows_overlap_train (rampSeries 101) (rampSeries 101)
      (fun _ => (0 : ℚ)) 60 (by rw [rampSeries_length]; decide)).1⟩

/-! ### Rollout lemmas -/

theorem futureRollout_length (p : List ℚ → ℚ) (w : List ℚ) (n : ℕ) :
    (futureRollout p w n).length = n := by
  induction n generalizing w with
  | zero => rfl
  | succ m ih => simp [futureRollout, ih]

theorem rolloutWindow_shift (p : List ℚ → ℚ) (w : List ℚ) (i : ℕ) :
    rolloutWindow p (slideStep p w) i = rolloutWindow p w (i + 1) := by
  induction i with
  | zero => rfl
  | succ m ih =>
    show slideStep p (rolloutWindow p (slideStep p w) m)
        = slideStep p (rolloutWindow p w (m + 1))
    rw [ih]

theorem futureRollout_getElem (p : List ℚ → ℚ) :
    ∀ (n i : ℕ) (w : List ℚ), i < n →
      (futureRollout p w n)[i]? = some (p (rolloutWindow p w i)) := by
  intro n
  induction n with
  | zero => intro i w h; omega
  | succ m ih =>
    intro i w h
    have hcons : futureRollout p w (m + 1)
        = p w :: futureRollout p (slideStep p w) m := rfl
    cases i with
    | zero => rw [hcons, List.getElem?_cons_zero]; rfl
    | succ k =>
      rw [hcons, List.getElem?_cons_succ,
        ih k (slideStep p w) (by omega), rolloutWindow_shift]

theorem futureDates_length (last : ℤ) (n : ℕ) :
    (futureDates last n).length = n := by
  simp [futureDates]

theorem futureDates_pairwise (last : ℤ) (n : ℕ) :
    (futureDates last n).Pairwise (· < ·) :=
  List.Pairwise.map _ (fun a b h => by
    have hab : a < b := h
    omega) (List.pairwise_lt_range n)

theorem futureDates_mem_gt (last : ℤ) (n : ℕ) (d : ℤ)
    (h : d ∈ futureDates last n) : last < d := by
  rw [futureDates, List.mem_map] at h
  obtain ⟨i, _, rfl⟩ := h
  omega

/-! ## Claims C6 and C7 -/

/-- C7: the autoregressive rollout keeps a fixed-length sliding window.
With an initial window of length `t ≥ 1`: every iteration's window has
length exactly `t`; the next window is the previous one with its oldest
value dropped and the model's prediction on the previous window appended;
entry `i` of `future_predictions` is the model applied to iteration `i`'s
window; and iteration `i+1`'s window has iteration `i`'s prediction as its
newest (last) element. -/
theorem C7_rollout_sliding_window (p : List ℚ → ℚ) (w : List ℚ)
    (t horizon : ℕ) (ht : 1 ≤ t) (hw : w.length = t) :
    (∀ i, (rolloutWindow p w i).length = t) ∧
    (∀ i, rolloutWindow p w (i + 1)
        = (rolloutWindow p w i).drop 1 ++ [p (rolloutWindow p w i)]) ∧
    (∀ i, i < horizon →
      (futureRollout p w horizon)[i]? = some (p (rolloutWindow p w i))) ∧
    (∀ i, (rolloutWindow p w (i + 1)).getLast?
        = some (p (rolloutWindow p w i))) := by
  have hlen : ∀ i, (rolloutWindow p w i).length = t := by
    intro i
    induction i with
    | zero => exact hw
    | succ m ih =>
      rw [rolloutWindow, slideStep, List.length_append, List.length_drop, ih]
      simp
      omega
  refine ⟨hlen, fun i => rfl, fun i hi => futureRollout_getElem p horizon i w hi,
    fun i => ?_⟩
  rw [rolloutWindow, slideStep, List.getLast?_concat]

/-- Witness for C7 at `t = 2`, window `[0, 1]`, summing model, horizon 2. -/
theorem C7_rollout_sliding_window_witness :
    (1 ≤ 2 ∧ ([(0 : ℚ), 1]).length = 2) ∧
    ∀ i, (rolloutWindow (fun l => l.sum) [(0 : ℚ), 1] i).length = 2 :=
  ⟨⟨by norm_num, rfl⟩,
    (C7_rollout_sliding_window (fun l => l.sum) [(0 : ℚ), 1] 2 2
      (by norm_num) rfl).1⟩

/-- C6: whenever `train_predict_lstm` succeeds (the split leaves at least
one train window, i.e. `61 ≤ training_data_len`), it returns a future
frame of exactly `prediction_days` `(date, price)` rows whose dates are
strictly increasing and all strictly after the series' last date. -/
theorem C6_future_horizon (predictOne : List ℚ → ℚ) (sqrtFn : ℚ → ℚ)
    (lastDate : ℤ) (closes : List ℚ) (pd : ℕ)
    (h : 61 ≤ trainingDataLen closes.length) :
    ∃ r, trainPredictLstm predictOne sqrtFn lastDate closes pd = .ok r ∧
      r.future.length = pd ∧
      (r.future.map Prod.fst).Pairwise (· < ·) ∧
      ∀ d ∈ r.future.map Prod.fst, lastDate < d := by
  have hle := trainingDataLen_le closes.length
  have hne : closes ≠ [] := by
    intro hc
    rw [hc] at h
    simp only [List.length_nil] at h
    revert h
    decide
  have hlt : trainingDataLen closes.length < closes.length :=
    trainingDataLen_lt _ (by omega)
  have hxtrain : windowsX ((closes.map (fitScaler closes).transform).take
      (trainingDataLen closes.length)) 60 ≠ [] := by
    apply List.ne_nil_of_length_pos
    rw [windowsX_length, List.length_take, List.length_map]
    omega
  have hpy : pyDrop (closes.map (fitScaler closes).transform)
      ((trainingDataLen closes.length : ℤ) - 60)
        = (closes.map (fitScaler closes).transform).drop
            (trainingDataLen closes.length - 60) := by
    unfold pyDrop
    rw [if_pos (by omega)]
    have h60 : ((trainingDataLen closes.length : ℤ) - 60).toNat
        = trainingDataLen closes.length - 60 := by omega
    rw [h60]
  have hxtest : windowsX (pyDrop (closes.map (fitScaler closes).transform)
      ((trainingDataLen closes.length : ℤ) - 60)) 60 ≠ [] := by
    apply List.ne_nil_of_length_pos
    rw [hpy, windowsX_length, List.length_drop, List.length_map]
    omega
  rw [trainPredictLstm, if_neg hne, if_neg hxtrain, if_neg hxtest]
  refine ⟨_, rfl, ?_, ?_, ?_⟩
  · show ((futureDates lastDate pd).zip _).length = pd
    rw [List.length_zip, futureDates_length, List.length_map,
      futureRollout_length]
    omega
  · show (((futureDates lastDate pd).zip _).map Prod.fst).Pairwise (· < ·)
    rw [List.map_fst_zip _ _ (by
      rw [futureDates_length, List.length_map, futureRollout_length])]
    exact futureDates_pairwise lastDate pd
  · show ∀ d ∈ ((futureDates lastDate pd).zip _).map Prod.fst, lastDate < d
    rw [List.map_fst_zip _ _ (by
      rw [futureDates_length, List.length_map, futureRollout_length])]
    exact futureDates_mem_gt lastDate pd

/-- Witness for C6: a ramp series of length 76 (`training_data_len = 61`,
one train window), horizon 5 days. -/
theorem C6_future_horizon_witness :
    61 ≤ trainingDataLen (rampSeries 76).length ∧
    ∃ r, trainPredictLstm (fun _ => 0) (fun q => q) 10 (rampSeries 76) 5
          = .ok r ∧
      r.future.length = 5 ∧
      (r.future.map Prod.fst).Pairwise (· < ·) ∧
      ∀ d ∈ r.future.map Prod.fst, 10 < d :=
  ⟨by rw [rampSeries_length]; decide,
    C6_future_horizon (fun _ => 0) (fun q => q) 10 (rampSeries 76) 5
      (by rw [rampSeries_length]; decide)⟩

/-! ### Indicator lemmas -/

theorem ewmMean_length (k : ℚ) (xs : List ℚ) :
    (ewmMean k xs).length = xs.length := by
  cases xs with
  | nil => rfl
  | cons c cs =>
    rw [ewmMean, List.length_scanl]
    rfl

theorem ewmMean_head (k c : ℚ) (cs : List ℚ) :
    (ewmMean k (c :: cs)).getD 0 0 = c := by
  rw [ewmMean, List.getD_eq_getElem?_getD, List.getElem?_scanl_zero]
  rfl

theorem ewmMean_rec (k : ℚ) (xs : List ℚ) (i : ℕ) (h : i + 1 < xs.length) :
    (ewmMean k xs).getD (i + 1) 0
      = xs.getD (i + 1) 0 * k + (ewmMean k xs).getD i 0 * (1 - k) := by
  cases xs with
  | nil => simp at h
  | cons c cs =>
    have hcs : i < cs.length := by
      simpa using Nat.lt_of_succ_lt_succ h
    have hlen : (List.scanl (fun prev x => x * k + prev * (1 - k)) c cs).length
        = cs.length + 1 := List.length_scanl c cs
    have hi1 : i + 1 < (List.scanl (fun prev x => x * k + prev * (1 - k)) c cs).length := by
      omega
    rw [ewmMean, List.getD_cons_succ, List.getD_eq_getElem _ _ hcs,
      List.getD_eq_getElem _ _ hi1,
      List.getD_eq_getElem _ _
        (show i < (List.scanl (fun prev x => x * k + prev * (1 - k)) c cs).length
          from by omega),
      List.getElem_succ_scanl hi1]

theorem scanl_ewm_const (k v : ℚ) (m : ℕ) :
    List.scanl (fun prev x => x * k + prev * (1 - k)) v (List.replicate m v)
      = List.replicate (m + 1) v := by
  induction m with
  | zero => rfl
  | succ j ih =>
    rw [List.replicate_succ, List.scanl_cons]
    have hv : v * k + v * (1 - k) = v := by ring
    rw [hv, ih]
    rfl

theorem ewmMean_replicate (k v : ℚ) (n : ℕ) :
    ewmMean k (List.replicate n v) = List.replicate n v := by
  cases n with
  | zero => rfl
  | succ m =>
    rw [List.replicate_succ, ewmMean, scanl_ewm_const, List.replicate_succ]

theorem rollingMean_length (w : ℕ) (xs : List ℚ) :
    (rollingMean w xs).length = xs.length := by
  simp [rollingMean]

theorem rollingMean_getD_eq (w : ℕ) (xs : List ℚ) (i : ℕ)
    (hi : i < xs.length) :
    (rollingMean w xs).getD i none
      = if i + 1 < w then none
        else some (((xs.drop (i + 1 - w)).take w).sum / (w : ℚ)) := by
  rw [rollingMean, List.getD_eq_getElem?_getD, List.getElem?_map,
    List.getElem?_range hi]
  rfl

theorem rollingMean_getD_of_le (w : ℕ) (xs : List ℚ) (i : ℕ)
    (hi : xs.length ≤ i) : (rollingMean w xs).getD i none = none := by
  apply List.getD_eq_default
  rw [rollingMean_length]
  exact hi

theorem zipWith_nonneg_of (f : ℚ → ℚ → ℚ) (hf : ∀ a b, 0 ≤ f a b) :
    ∀ (l1 l2 : List ℚ) (x : ℚ), x ∈ List.zipWith f l1 l2 → 0 ≤ x := by
  intro l1
  induction l1 with
  | nil => intro l2 x hx; simp at hx
  | cons a as ih =>
    intro l2 x hx
    cases l2 with
    | nil => simp at hx
    | cons b bs =>
      rw [List.zipWith_cons_cons] at hx
      rcases List.mem_cons.mp hx with h0 | hmem
      · rw [h0]; exact hf a b
      · exact ih bs x hmem

theorem gains_nonneg (closes : List ℚ) : ∀ x ∈ gains closes, 0 ≤ x := by
  cases closes with
  | nil => intro x hx; simp [gains] at hx
  | cons c cs =>
    intro x hx
    rw [gains] at hx
    rcases List.mem_cons.mp hx with h0 | hmem
    · rw [h0]
    · refine zipWith_nonneg_of _ (fun a b => ?_) cs (c :: cs) x hmem
      split_ifs with hab
      · linarith
      · exact le_refl 0

theorem losses_nonneg (closes : List ℚ) : ∀ x ∈ losses closes, 0 ≤ x := by
  cases closes with
  | nil => intro x hx; simp [losses] at hx
  | cons c cs =>
    intro x hx
    rw [losses] at hx
    rcases List.mem_cons.mp hx with h0 | hmem
    · rw [h0]
    · refine zipWith_nonneg_of _ (fun a b => ?_) cs (c :: cs) x hmem
      split_ifs with hab
      · linarith
      · exact le_refl 0

theorem gains_length (closes : List ℚ) :
    (gains closes).length = closes.length := by
  cases closes with
  | nil => rfl
  | cons c cs =>
    rw [gains]
    simp [List.length_zipWith]

theorem losses_length (closes : List ℚ) :
    (losses closes).length = closes.length := by
  cases closes with
  | nil => rfl
  | cons c cs =>
    rw [losses]
    simp [List.length_zipWith]

theorem rollingMean_some_nonneg (w : ℕ) (xs : List ℚ) (i : ℕ) (q : ℚ)
    (hx : ∀ x ∈ xs, 0 ≤ x)
    (h : (rollingMean w xs).getD i none = some q) : 0 ≤ q := by
  by_cases hi : i < xs.length
  · rw [rollingMean_getD_eq w xs i hi] at h
    by_cases hw : i + 1 < w
    · rw [if_pos hw] at h
      exact absurd h (by simp)
    · rw [if_neg hw] at h
      obtain rfl : ((xs.drop (i + 1 - w)).take w).sum / (w : ℚ) = q :=
        Option.some.inj h
      apply div_nonneg
      · apply List.sum_nonneg
        intro x hxm
        exact hx x (List.mem_of_mem_drop (List.mem_of_mem_take hxm))
      · positivity
  · rw [rollingMean_getD_of_le w xs i (by omega)] at h
    exact absurd h (by simp)

theorem zipWith_getD_opt (f : Option ℚ → Option ℚ → Option ℚ)
    (as bs : List (Option ℚ)) (i : ℕ)
    (h1 : i < as.length) (h2 : i < bs.length) :
    (List.zipWith f as bs).getD i none
      = f (as.getD i none) (bs.getD i none) := by
  rw [List.getD_eq_getElem?_getD, List.getElem?_zipWith,
    List.getElem?_eq_getElem h1, List.getElem?_eq_getElem h2,
    List.getD_eq_getElem _ _ h1, List.getD_eq_getElem _ _ h2]
  rfl

theorem rsiColumn_length (closes : List ℚ) :
    (rsiColumn closes).length = closes.length := by
  rw [rsiColumn, List.length_zipWith, rollingMean_length, rollingMean_length,
    gains_length, losses_length]
  omega

theorem rsiColumn_getD (closes : List ℚ) (i : ℕ) (hi : i < closes.length) :
    (rsiColumn closes).getD i none
      = rsiFromAvgs ((rollingMean 14 (gains closes)).getD i none)
          ((rollingMean 14 (losses closes)).getD i none) := by
  rw [rsiColumn]
  exact zipWith_getD_opt _ _ _ i
    (by rw [rollingMean_length, gains_length]; exact hi)
    (by rw [rollingMean_length, losses_length]; exact hi)

/-! ## Claim C8 -/

/-- C8: both EMA columns (`ewm(span, adjust=False).mean()` at spans 12
and 26, lines 99-100) satisfy the recurrence
`ema[i] = price[i]*k + ema[i-1]*(1-k)` with `k = 2/(span+1)`, are seeded
with `ema[0] = price[0]`, are defined at every index (full column length,
no warm-up gap), and on a constant series of value `v` equal `v`
everywhere. -/
theorem C8_ema_recurrence (closes : List ℚ) (v : ℚ) (n i : ℕ)
    (h1 : closes ≠ []) (hi : i + 1 < closes.length) :
    ((emaSpan 12 closes).length = closes.length ∧
      (emaSpan 12 closes).getD 0 0 = closes.getD 0 0 ∧
      (emaSpan 12 closes).getD (i + 1) 0
        = closes.getD (i + 1) 0 * (2 / 13)
            + (emaSpan 12 closes).getD i 0 * (1 - 2 / 13)) ∧
    ((emaSpan 26 closes).length = closes.length ∧
      (emaSpan 26 closes).getD 0 0 = closes.getD 0 0 ∧
      (emaSpan 26 closes).getD (i + 1) 0
        = closes.getD (i + 1) 0 * (2 / 27)
            + (emaSpan 26 closes).getD i 0 * (1 - 2 / 27)) ∧
    emaSpan 12 (List.replicate n v) = List.replicate n v ∧
    emaSpan 26 (List.replicate n v) = List.replicate n v := by
  obtain ⟨c, cs, rfl⟩ := List.exists_cons_of_ne_nil h1
  have h12 : emaSpan 12 = ewmMean (2 / 13) := by
    unfold emaSpan
    norm_num
  have h26 : emaSpan 26 = ewmMean (2 / 27) := by
    unfold emaSpan
    norm_num
  refine ⟨⟨?_, ?_, ?_⟩, ⟨?_, ?_, ?_⟩, ?_, ?_⟩
  · rw [h12, ewmMean_length]
  · rw [h12, ewmMean_head]; rfl
  · rw [h12]; exact ewmMean_rec (2 / 13) (c :: cs) i hi
  · rw [h26, ewmMean_length]
  · rw [h26, ewmMean_head]; rfl
  · rw [h26]; exact ewmMean_rec (2 / 27) (c :: cs) i hi
  · rw [h12, ewmMean_replicate]
  · rw [h26, ewmMean_replicate]

/-- Witness for C8 at `closes = [1, 2]`, `i = 0`, constant series of
length 3 and value 5. -/
theorem C8_ema_recurrence_witness :
    (([(1 : ℚ), 2] : List ℚ) ≠ [] ∧ 0 + 1 < ([(1 : ℚ), 2] : List ℚ).length) ∧
    emaSpan 12 (List.replicate 3 (5 : ℚ)) = List.replicate 3 (5 : ℚ) :=
  ⟨⟨by simp, by simp⟩,
    (C8_ema_recurrence [(1 : ℚ), 2] 5 3 0 (by simp) (by simp)).2.2.1⟩

/-! ### Concrete RSI evaluations (constant series and a step series) -/

theorem zipWith_const_pair (f : ℚ → ℚ → ℚ) (v : ℚ) (hf : f v v = 0) :
    ∀ m, List.zipWith f (List.replicate m v) (v :: List.replicate m v)
      = List.replicate m (0 : ℚ) := by
  intro m
  induction m with
  | zero => rfl
  | succ j ih =>
    rw [List.replicate_succ, List.zipWith_cons_cons, hf, ih,
      ← List.replicate_succ]

theorem gains_replicate (v : ℚ) (n : ℕ) :
    gains (List.replicate (n + 1) v) = List.replicate (n + 1) (0 : ℚ) := by
  rw [List.replicate_succ, gains,
    zipWith_const_pair _ v (by simp) n, ← List.replicate_succ]

theorem losses_replicate (v : ℚ) (n : ℕ) :
    losses (List.replicate (n + 1) v) = List.replicate (n + 1) (0 : ℚ) := by
  rw [List.replicate_succ, losses,
    zipWith_const_pair _ v (by simp) n, ← List.replicate_succ]

theorem rollingMean_replicate_zero (w n i : ℕ) (hi : i < n)
    (hwi : w ≤ i + 1) :
    (rollingMean w (List.replicate n (0 : ℚ))).getD i none = some 0 := by
  rw [rollingMean_getD_eq w _ i (by simp [hi]), if_neg (by omega),
    List.drop_replicate, List.take_replicate, List.sum_replicate]
  simp

/-- The step series `0, 1, 1, ..., 1` (one initial rise, then flat). -/
theorem gains_step :
    gains ((0 : ℚ) :: List.replicate 19 1) = 0 :: 1 :: List.replicate 18 0 := by
  rw [gains, show List.replicate 19 (1 : ℚ) = 1 :: List.replicate 18 1 from rfl,
    List.zipWith_cons_cons, zipWith_const_pair _ 1 (by simp) 18]
  norm_num

theorem losses_step :
    losses ((0 : ℚ) :: List.replicate 19 1) = List.replicate 20 (0 : ℚ) := by
  rw [losses, show List.replicate 19 (1 : ℚ) = 1 :: List.replicate 18 1 from rfl,
    List.zipWith_cons_cons, zipWith_const_pair _ 1 (by simp) 18]
  norm_num
  rfl

theorem avgGain_step :
    (rollingMean 14 (gains ((0 : ℚ) :: List.replicate 19 1))).getD 14 none
      = some (1 / 14) := by
  rw [gains_step, rollingMean_getD_eq 14 _ 14 (by simp), if_neg (by norm_num)]
  have hdt : (((0 : ℚ) :: 1 :: List.replicate 18 0).drop (14 + 1 - 14)).take 14
      = 1 :: List.replicate 13 0 := by
    show ((1 : ℚ) :: List.replicate 18 0).take (13 + 1) = 1 :: List.replicate 13 0
    rw [List.take_succ_cons, List.take_replicate]
    norm_num
  rw [hdt, List.sum_cons, List.sum_replicate]
  norm_num

theorem avgLoss_step :
    (rollingMean 14 (losses ((0 : ℚ) :: List.replicate 19 1))).getD 14 none
      = some 0 := by
  rw [losses_step]
  exact rollingMean_replicate_zero 14 20 14 (by norm_num) (by norm_num)

/-! ## Claim C4 -/

/-- C4, counterexample.  The claim says that whenever the 14-period
average loss is zero the oscillator value is 100, never an undefined
value.  On a constant series (20 closes of 7) the average loss at index
14 IS zero — but so is the average gain, so `rs = 0/0` is NaN and the RSI
entry is undefined (NaN), not 100. -/
theorem C4_counterexample :
    (rollingMean 14 (losses (List.replicate 20 (7 : ℚ)))).getD 14 none
        = some 0 ∧
    (rollingMean 14 (gains (List.replicate 20 (7 : ℚ)))).getD 14 none
        = some 0 ∧
    (rsiColumn (List.replicate 20 (7 : ℚ))).getD 14 none = none := by
  have hl : (rollingMean 14 (losses (List.replicate 20 (7 : ℚ)))).getD 14 none
      = some 0 := by
    rw [(losses_replicate 7 19 :
      losses (List.replicate 20 (7 : ℚ)) = List.replicate 20 0)]
    exact rollingMean_replicate_zero 14 20 14 (by norm_num) (by norm_num)
  have hg : (rollingMean 14 (gains (List.replicate 20 (7 : ℚ)))).getD 14 none
      = some 0 := by
    rw [(gains_replicate 7 19 :
      gains (List.replicate 20 (7 : ℚ)) = List.replicate 20 0)]
    exact rollingMean_replicate_zero 14 20 14 (by norm_num) (by norm_num)
  refine ⟨hl, hg, ?_⟩
  rw [rsiColumn_getD _ 14 (by simp), hg, hl]
  simp [rsiFromAvgs]

/-- C4, amended.  Wherever the RSI is defined its value lies in
`[0, 100]`; when the 14-period average loss is zero and the average gain
is positive the value is exactly 100 (the IEEE `+inf` ratio case); but
when average loss and average gain are both zero (constant window) the
entry is NaN (undefined), not 100. -/
theorem C4_rsi_bounds (closes : List ℚ) (i : ℕ) :
    (∀ q, (rsiColumn closes).getD i none = some q → 0 ≤ q ∧ q ≤ 100) ∧
    (∀ g, (rollingMean 14 (gains closes)).getD i none = some g →
      (rollingMean 14 (losses closes)).getD i none = some 0 →
      g ≠ 0 → (rsiColumn closes).getD i none = some 100) ∧
    ((rollingMean 14 (gains closes)).getD i none = some 0 →
      (rollingMean 14 (losses closes)).getD i none = some 0 →
      (rsiColumn closes).getD i none = none) := by
  have hlenr : (rsiColumn closes).length = closes.length :=
    rsiColumn_length closes
  refine ⟨?_, ?_, ?_⟩
  · intro q hq
    have hi : i < closes.length := by
      by_contra hcon
      rw [List.getD_eq_default _ _ (by omega)] at hq
      exact absurd hq (by simp)
    rw [rsiColumn_getD closes i hi] at hq
    cases hG : (rollingMean 14 (gains closes)).getD i none with
    | none => rw [hG] at hq; exact absurd hq (by simp [rsiFromAvgs])
    | some g =>
      cases hL : (rollingMean 14 (losses closes)).getD i none with
      | none => rw [hG, hL] at hq; exact absurd hq (by simp [rsiFromAvgs])
      | some l =>
        have hg : 0 ≤ g :=
          rollingMean_some_nonneg 14 (gains closes) i g (gains_nonneg closes) hG
        have hl : 0 ≤ l :=
          rollingMean_some_nonneg 14 (losses closes) i l (losses_nonneg closes) hL
        rw [hG, hL] at hq
        simp only [rsiFromAvgs] at hq
        by_cases hl0 : l = 0
        · rw [if_pos hl0] at hq
          by_cases hg0 : g = 0
          · rw [if_pos hg0] at hq
            exact absurd hq (by simp)
          · rw [if_neg hg0] at hq
            obtain rfl : (100 : ℚ) = q := Option.some.inj hq
            norm_num
        · rw [if_neg hl0] at hq
          obtain rfl : 100 - 100 / (1 + g / l) = q := Option.some.inj hq
          have hlpos : 0 < l := lt_of_le_of_ne hl (Ne.symm hl0)
          have hrs : 0 ≤ g / l := div_nonneg hg hl
          have h1p : (0 : ℚ) < 1 + g / l := by linarith
          have hup : 100 / (1 + g / l) ≤ 100 := by
            rw [div_le_iff h1p]
            nlinarith
          have hlow : 0 ≤ 100 / (1 + g / l) := by positivity
          constructor <;> linarith
  · intro g hg hl hgne
    have hi : i < closes.length := by
      by_contra hcon
      rw [rollingMean_getD_of_le 14 (gains closes) i
        (by rw [gains_length]; omega)] at hg
      exact absurd hg (by simp)
    rw [rsiColumn_getD closes i hi, hg, hl]
    simp only [rsiFromAvgs]
    simp [hgne]
  · intro hg hl
    have hi : i < closes.length := by
      by_contra hcon
      rw [rollingMean_getD_of_le 14 (gains closes) i
        (by rw [gains_length]; omega)] at hg
      exact absurd hg (by simp)
    rw [rsiColumn_getD closes i hi, hg, hl]
    simp [rsiFromAvgs]

/-- Witness for C4's amended theorem: on the step series
`0, 1, 1, ..., 1` (20 closes) the average loss at index 14 is zero and
the average gain is `1/14 > 0`, so the RSI there is exactly 100. -/
theorem C4_rsi_bounds_witness :
    ((rollingMean 14 (gains ((0 : ℚ) :: List.replicate 19 1))).getD 14 none
        = some (1 / 14) ∧
      (rollingMean 14 (losses ((0 : ℚ) :: List.replicate 19 1))).getD 14 none
        = some 0 ∧
      (1 / 14 : ℚ) ≠ 0) ∧
    (rsiColumn ((0 : ℚ) :: List.replicate 19 1)).getD 14 none = some 100 :=
  ⟨⟨avgGain_step, avgLoss_step, by norm_num⟩,
    (C4_rsi_bounds ((0 : ℚ) :: List.replicate 19 1) 14).2.1 (1 / 14)
      avgGain_step avgLoss_step (by norm_num)⟩
/-! ### Rolling-std and momentum lemmas -/

theorem rollingStd_length (sqrtFn : ℚ → ℚ) (w : ℕ) (xs : List ℚ) :
    (rollingStd sqrtFn w xs).length = xs.length := by
  simp [rollingStd]

theorem rollingStd_getD_eq (sqrtFn : ℚ → ℚ) (w : ℕ) (xs : List ℚ) (i : ℕ)
    (hi : i < xs.length) :
    (rollingStd sqrtFn w xs).getD i none
      = if i + 1 < w then none
        else
          some (sqrtFn ((((xs.drop (i + 1 - w)).take w).map
              (fun x => (x - ((xs.drop (i + 1 - w)).take w).sum / (w : ℚ)) ^ 2)).sum
            / ((w : ℚ) - 1))) := by
  rw [rollingStd, List.getD_eq_getElem?_getD, List.getElem?_map,
    List.getElem?_range hi]
  rfl

theorem momentumColumn_length (closes : List ℚ) :
    (momentumColumn closes).length = closes.length := by
  simp [momentumColumn]

theorem momentumColumn_getD_eq (closes : List ℚ) (i : ℕ)
    (hi : i < closes.length) :
    (momentumColumn closes).getD i none
      = if i < 10 then none
        else if closes.getD (i - 10) 0 = 0 then none
        else some (closes.getD i 0 / closes.getD (i - 10) 0) := by
  rw [momentumColumn, List.getD_eq_getElem?_getD, List.getElem?_map,
    List.getElem?_range hi]
  rfl

/-! ## Claim C9 -/

/-- C9: the indicator computation is a total function of any close series
(it is a Lean function — it cannot raise): every derived column has
exactly the input's length, and warm-up positions are represented as
undefined values (`none`) in the frame rather than failing.  The three
SMA columns and the band columns are undefined exactly on their
`window - 1` leading positions; the RSI is undefined on its first 13
positions; band width and momentum are undefined on their leading
positions (and possibly later, only where IEEE division produces a
non-finite value); the EMA-family columns are total with no gap. -/
theorem C9_indicators_total (sqrtFn : ℚ → ℚ) (closes : List ℚ) :
    ((calculateTechnicalIndicators sqrtFn closes).sma20.length = closes.length ∧
     (calculateTechnicalIndicators sqrtFn closes).sma50.length = closes.length ∧
     (calculateTechnicalIndicators sqrtFn closes).sma200.length = closes.length ∧
     (calculateTechnicalIndicators sqrtFn closes).ema12.length = closes.length ∧
     (calculateTechnicalIndicators sqrtFn closes).ema26.length = closes.length ∧
     (calculateTechnicalIndicators sqrtFn closes).macd.length = closes.length ∧
     (calculateTechnicalIndicators sqrtFn closes).macdSignal.length = closes.length ∧
     (calculateTechnicalIndicators sqrtFn closes).macdHist.length = closes.length ∧
     (calculateTechnicalIndicators sqrtFn closes).rsi.length = closes.length ∧
     (calculateTechnicalIndicators sqrtFn closes).bbMiddle.length = closes.length ∧
     (calculateTechnicalIndicators sqrtFn closes).bbStd.length = closes.length ∧
     (calculateTechnicalIndicators sqrtFn closes).bbUpper.length = closes.length ∧
     (calculateTechnicalIndicators sqrtFn closes).bbLower.length = closes.length ∧
     (calculateTechnicalIndicators sqrtFn closes).bbWidth.length = closes.length ∧
     (calculateTechnicalIndicators sqrtFn closes).momentum.length = closes.length) ∧
    (∀ i, i < closes.length →
      ((calculateTechnicalIndicators sqrtFn closes).sma20.getD i none = none
          ↔ i + 1 < 20) ∧
      ((calculateTechnicalIndicators sqrtFn closes).sma50.getD i none = none
          ↔ i + 1 < 50) ∧
      ((calculateTechnicalIndicators sqrtFn closes).sma200.getD i none = none
          ↔ i + 1 < 200) ∧
      ((calculateTechnicalIndicators sqrtFn closes).bbMiddle.getD i none = none
          ↔ i + 1 < 20) ∧
      ((calculateTechnicalIndicators sqrtFn closes).bbStd.getD i none = none
          ↔ i + 1 < 20) ∧
      ((calculateTechnicalIndicators sqrtFn closes).bbUpper.getD i none = none
          ↔ i + 1 < 20) ∧
      ((calculateTechnicalIndicators sqrtFn closes).bbLower.getD i none = none
          ↔ i + 1 < 20) ∧
      (i + 1 < 14 →
        (calculateTechnicalIndicators sqrtFn closes).rsi.getD i none = none) ∧
      (i + 1 < 20 →
        (calculateTechnicalIndicators sqrtFn closes).bbWidth.getD i none = none) ∧
      (i < 10 →
        (calculateTechnicalIndicators sqrtFn closes).momentum.getD i none = none)) := by
  have h12 : (emaSpan 12 closes).length = closes.length := by
    unfold emaSpan
    exact ewmMean_length _ _
  have h26 : (emaSpan 26 closes).length = closes.length := by
    unfold emaSpan
    exact ewmMean_length _ _
  have hmacd : (List.zipWith (fun a b => a - b) (emaSpan 12 closes)
      (emaSpan 26 closes)).length = closes.length := by
    rw [List.length_zipWith, h12, h26, min_self]
  have hsig : (emaSpan 9 (List.zipWith (fun a b => a - b) (emaSpan 12 closes)
      (emaSpan 26 closes))).length = closes.length := by
    unfold emaSpan
    rw [ewmMean_length]
    exact hmacd
  have hmid : (rollingMean 20 closes).length = closes.length :=
    rollingMean_length _ _
  have hstd : (rollingStd sqrtFn 20 closes).length = closes.length :=
    rollingStd_length _ _ _
  have hup : (List.zipWith (optMap2 fun m s => m + 2 * s)
      (rollingMean 20 closes) (rollingStd sqrtFn 20 closes)).length
        = closes.length := by
    rw [List.length_zipWith, hmid, hstd, min_self]
  have hlo : (List.zipWith (optMap2 fun m s => m - 2 * s)
      (rollingMean 20 closes) (rollingStd sqrtFn 20 closes)).length
        = closes.length := by
    rw [List.length_zipWith, hmid, hstd, min_self]
  simp only [calculateTechnicalIndicators]
  constructor
  · refine ⟨rollingMean_length _ _, rollingMean_length _ _,
      rollingMean_length _ _, h12, h26, hmacd, hsig, ?_,
      rsiColumn_length _, hmid, hstd, hup, hlo, ?_, momentumColumn_length _⟩
    · rw [List.length_zipWith, hmacd, hsig, min_self]
    · rw [List.length_zipWith, List.length_zipWith, hup, hlo, min_self, hmid,
        min_self]
  · intro i hi
    have hsma : ∀ w : ℕ, (rollingMean w closes).getD i none = none ↔ i + 1 < w := by
      intro w
      rw [rollingMean_getD_eq w closes i hi]
      by_cases h : i + 1 < w <;> simp [h]
    have hstdi : (rollingStd sqrtFn 20 closes).getD i none = none ↔ i + 1 < 20 := by
      rw [rollingStd_getD_eq sqrtFn 20 closes i hi]
      by_cases h : i + 1 < 20 <;> simp [h]
    have hupi : (List.zipWith (optMap2 fun m s => m + 2 * s)
        (rollingMean 20 closes) (rollingStd sqrtFn 20 closes)).getD i none = none
          ↔ i + 1 < 20 := by
      rw [zipWith_getD_opt _ _ _ i (by omega) (by omega),
        rollingMean_getD_eq 20 closes i hi,
        rollingStd_getD_eq sqrtFn 20 closes i hi]
      by_cases h : i + 1 < 20 <;> simp [h, optMap2]
    have hloi : (List.zipWith (optMap2 fun m s => m - 2 * s)
        (rollingMean 20 closes) (rollingStd sqrtFn 20 closes)).getD i none = none
          ↔ i + 1 < 20 := by
      rw [zipWith_getD_opt _ _ _ i (by omega) (by omega),
        rollingMean_getD_eq 20 closes i hi,
        rollingStd_getD_eq sqrtFn 20 closes i hi]
      by_cases h : i + 1 < 20 <;> simp [h, optMap2]
    refine ⟨hsma 20, hsma 50, hsma 200, hsma 20, hstdi, hupi, hloi, ?_, ?_, ?_⟩
    · intro h
      rw [rsiColumn_getD closes i hi,
        rollingMean_getD_eq 14 (gains closes) i (by rw [gains_length]; exact hi),
        rollingMean_getD_eq 14 (losses closes) i (by rw [losses_length]; exact hi),
        if_pos h, if_pos h]
      rfl
    · intro h
      rw [zipWith_getD_opt _ _ _ i
          (by rw [List.length_zipWith, hup, hlo, min_self]; exact hi)
          (by omega),
        zipWith_getD_opt _ _ _ i (by omega) (by omega),
        zipWith_getD_opt _ _ _ i (by omega) (by omega),
        rollingMean_getD_eq 20 closes i hi, if_pos h]
      rfl
    · intro h
      rw [momentumColumn_getD_eq closes i hi, if_pos h]

/-- Witness for C9 at the ramp series of length 25, index 3 (inside the
SMA-20 warm-up gap). -/
theorem C9_indicators_total_witness :
    3 < (rampSeries 25).length ∧
    ((calculateTechnicalIndicators (fun q => q) (rampSeries 25)).sma20.getD 3 none
        = none ↔ 3 + 1 < 20) :=
  ⟨by rw [rampSeries_length]; norm_num,
    ((C9_indicators_total (fun q => q) (rampSeries 25)).2 3
      (by rw [rampSeries_length]; norm_num)).1⟩

end StockPrediction
